import Mathlib

/-!
Shallow embedding of `src/optimiser.py`: the one-month LP formulation built by
`optimise_month`, the `roll_forward` ageing step and the `simulate` loop, over
exact rational arithmetic.  The LP solver (`pywraplp` / HiGHS) is external to
the repository; it is modelled as an oracle returning either an assignment
(the code's `OPTIMAL` outcome, whose solution is assumed feasible and optimal
when reasoning about successful solves) or nothing (any non-`OPTIMAL` status,
on which the code raises `RuntimeError`).
-/

/-- The four overdue buckets for which `optimise_month` creates a decision
variable: the tuple `("31_60", "61_90", "91_120", "120_plus")` at line 31. -/
inductive Overdue
  | b31_60
  | b61_90
  | b91_120
  | b120_plus
  deriving DecidableEq, Fintype

/-- The balance dict `bal`.  The five keys of the module's bucket set
(`current, 31_60, 61_90, 91_120, 120_plus`, per the docstring) are always
present; `one_30` models the optional `"1_30"` key that the sample data in
`streamlit_app.py` carries and that `optimise_month` never reads by name
(it only enters `sum(bal.values())`). -/
structure Bal where
  current : ℚ
  one_30 : Option ℚ
  b31_60 : ℚ
  b61_90 : ℚ
  b91_120 : ℚ
  b120_plus : ℚ
  deriving DecidableEq

/-- `total = sum(bal.values())` (line 32): the sum over every key present. -/
def Bal.total (bal : Bal) : ℚ :=
  bal.current + bal.one_30.getD 0 + bal.b31_60 + bal.b61_90 + bal.b91_120 + bal.b120_plus

/-- Balance of an overdue bucket. -/
def Bal.ov (bal : Bal) : Overdue → ℚ
  | Overdue.b31_60 => bal.b31_60
  | Overdue.b61_90 => bal.b61_90
  | Overdue.b91_120 => bal.b91_120
  | Overdue.b120_plus => bal.b120_plus

/-- The data-model invariant on balance vectors: every amount is
non-negative. -/
def Bal.Nonneg (bal : Bal) : Prop :=
  0 ≤ bal.current ∧ 0 ≤ bal.one_30.getD 0 ∧ 0 ≤ bal.b31_60 ∧ 0 ≤ bal.b61_90 ∧
    0 ≤ bal.b91_120 ∧ 0 ≤ bal.b120_plus

instance (bal : Bal) : Decidable bal.Nonneg := by
  unfold Bal.Nonneg; infer_instance

/-- The default weight dict built when `weights is None` (line 28). -/
def defaultWeights : Overdue → ℚ
  | Overdue.b31_60 => 1
  | Overdue.b61_90 => 3 / 2
  | Overdue.b91_120 => 2
  | Overdue.b120_plus => 4

/-- Python's `round` on an exact value: round half to even. -/
def rnd (x : ℚ) : ℤ :=
  if x - ⌊x⌋ < 1 / 2 then ⌊x⌋
  else if 1 / 2 < x - ⌊x⌋ then ⌊x⌋ + 1
  else if ⌊x⌋ % 2 = 0 then ⌊x⌋ else ⌊x⌋ + 1

/-- `round(x, d)` of Python, on exact rationals. -/
def round_to (d : ℕ) (x : ℚ) : ℚ :=
  (rnd (x * 10 ^ d) : ℚ) / 10 ^ d

/-- The whole input of `optimise_month`: the balance dict and the keyword
arguments, with `weights` already defaulted when the caller passed `None`. -/
structure LPInput where
  bal : Bal
  target_current : ℚ
  max_120p_ratio : ℚ
  max_120p_amount : Option ℚ
  weights : Overdue → ℚ

/-- `projected_current` of lines 38-44: the affine expression
`bal["current"] + Σ bal[b] * r[b]` over the four decision variables. -/
def projected_current (bal : Bal) (r : Overdue → ℚ) : ℚ :=
  bal.current + bal.b31_60 * r Overdue.b31_60 + bal.b61_90 * r Overdue.b61_90 +
    bal.b91_120 * r Overdue.b91_120 + bal.b120_plus * r Overdue.b120_plus

/-- The objective of line 35: `Σ weights[b] * r[b]`. -/
def cost (w r : Overdue → ℚ) : ℚ :=
  w Overdue.b31_60 * r Overdue.b31_60 + w Overdue.b61_90 * r Overdue.b61_90 +
    w Overdue.b91_120 * r Overdue.b91_120 + w Overdue.b120_plus * r Overdue.b120_plus

/-- The optional absolute cap of lines 49-50: it constrains only when the
keyword argument was supplied. -/
def amountOk (o : Option ℚ) (v : ℚ) : Prop :=
  ∀ a, o = some a → v ≤ a

instance (o : Option ℚ) (v : ℚ) : Decidable (amountOk o v) :=
  match o with
  | none => isTrue (by intro a h; cases h)
  | some a =>
      if h : v ≤ a then isTrue (by intro b hb; cases hb; exact h)
      else isFalse (fun hall => h (hall a rfl))

/-- The feasible region of the linear program that `optimise_month` hands to
the solver: variable bounds `NumVar(0, 1, ...)` (line 31), the target-current
constraint (line 45) and the 120-plus cap(s) (lines 48-50). -/
def Feasible (inp : LPInput) (r : Overdue → ℚ) : Prop :=
  (∀ b, 0 ≤ r b ∧ r b ≤ 1) ∧
  inp.target_current * inp.bal.total ≤ projected_current inp.bal r ∧
  inp.bal.b120_plus * (1 - r Overdue.b120_plus) ≤ inp.max_120p_ratio * inp.bal.total ∧
  amountOk inp.max_120p_amount (inp.bal.b120_plus * (1 - r Overdue.b120_plus))

instance (inp : LPInput) (r : Overdue → ℚ) : Decidable (Feasible inp r) := by
  unfold Feasible; infer_instance

/-- A globally optimal assignment of the linear program — what the solver's
`OPTIMAL` status certifies for the solution it returns. -/
def Optimal (inp : LPInput) (r : Overdue → ℚ) : Prop :=
  Feasible inp r ∧ ∀ r', Feasible inp r' → cost inp.weights r ≤ cost inp.weights r'

/-- The returned recovery dict `rec` (line 55): each solution value rounded
to 4 decimals. -/
def recOf (sol : Overdue → ℚ) : Overdue → ℚ :=
  fun b => round_to 4 (sol b)

/-- The plan as the dict `{k: ... for k in r}` of line 55: keys in the
insertion order of line 31. -/
def planAssoc (plan : Overdue → ℚ) : List (String × ℚ) :=
  [("31_60", plan Overdue.b31_60), ("61_90", plan Overdue.b61_90),
   ("91_120", plan Overdue.b91_120), ("120_plus", plan Overdue.b120_plus)]

/-- `sum(bal[b] * rec.get(b, 0) for b in rec)` of line 59. -/
def cash_sum (bal : Bal) (plan : Overdue → ℚ) : ℚ :=
  bal.b31_60 * plan Overdue.b31_60 + bal.b61_90 * plan Overdue.b61_90 +
    bal.b91_120 * plan Overdue.b91_120 + bal.b120_plus * plan Overdue.b120_plus

/-- The KPI dict of lines 56-60. -/
structure Kpi where
  current_ratio : ℚ
  pdr_ratio : ℚ
  cash_recovered : ℚ
  deriving DecidableEq

/-- Lines 56-60: `current_ratio` divides the unrounded solution value of the
`projected_current` expression by `total`; `pdr_ratio` and `cash_recovered`
use the rounded `rec` values. -/
def mkKpi (inp : LPInput) (sol : Overdue → ℚ) : Kpi :=
  { current_ratio := round_to 4 (projected_current inp.bal sol / inp.bal.total)
    pdr_ratio :=
      round_to 4 (inp.bal.b120_plus * (1 - recOf sol Overdue.b120_plus) / inp.bal.total)
    cash_recovered := round_to 2 (cash_sum inp.bal (recOf sol)) }

/-- The errors the two functions can raise: the `RuntimeError` of line 53 and
Python's `ZeroDivisionError` from the divisions by `total` in lines 57-58. -/
inductive PyError
  | runtimeError (msg : String)
  | zeroDivisionError
  deriving DecidableEq

/-- `optimise_month` (lines 15-61), with the external solver's outcome made
an explicit argument: `none` models any non-`OPTIMAL` status (line 52 raises),
`some sol` models `OPTIMAL` with solution values `sol`.  When the solve
succeeds and `total = 0`, the divisions of lines 57-58 raise
`ZeroDivisionError` before anything is returned. -/
def optimise_month (inp : LPInput) (solres : Option (Overdue → ℚ)) :
    Except PyError ((Overdue → ℚ) × Kpi) :=
  match solres with
  | none => Except.error (PyError.runtimeError "No feasible plan for given targets.")
  | some sol =>
      if inp.bal.total = 0 then Except.error PyError.zeroDivisionError
      else Except.ok (recOf sol, mkKpi inp sol)

/-- `roll_forward` (lines 67-77), verbatim: the returned dict has exactly the
keys `current, 31_60, 61_90, 91_120, 120_plus` (so no `1_30`), `new31` is the
literal `0.0`, and `newcur = bal["current"] + fresh_sales`. -/
def roll_forward (bal : Bal) (plan : Overdue → ℚ) (fresh_sales : ℚ) : Bal :=
  { current := bal.current + fresh_sales
    one_30 := none
    b31_60 := 0
    b61_90 := bal.b31_60 * (1 - plan Overdue.b31_60)
    b91_120 := bal.b61_90 * (1 - plan Overdue.b61_90)
    b120_plus := bal.b120_plus * (1 - plan Overdue.b120_plus) +
      bal.b91_120 * (1 - plan Overdue.b91_120) }

/-- A solver oracle: what the external LP library answers on each input. -/
def Solver : Type := LPInput → Option (Overdue → ℚ)

/-- A sound solver: whenever it reports `OPTIMAL` with a solution, that
solution is feasible and globally optimal (the guarantee the code relies on
at line 52). -/
def SoundSolver (solver : Solver) : Prop :=
  ∀ inp sol, solver inp = some sol → Optimal inp sol

/-- The per-month entry appended to `history` at line 102. -/
structure Record where
  month : ℕ
  balances : Bal
  recoveries : Overdue → ℚ
  kpi : Kpi

/-- The `LPInput` that `simulate` builds at lines 97-101: no absolute cap,
default weights. -/
def mkInp (bal : Bal) (tc mr : ℚ) : LPInput :=
  { bal := bal, target_current := tc, max_120p_ratio := mr,
    max_120p_amount := none, weights := defaultWeights }

/-- The loop body of `simulate` (lines 96-103), with the month counter, the
running balances and the accumulated (reversed) history made explicit. -/
def simGo (solver : Solver) (tc mr : ℚ) :
    ℕ → ℕ → Bal → List Record → Except PyError (List Record)
  | 0, _, _, acc => Except.ok acc.reverse
  | Nat.succ k, m, bal, acc =>
      match optimise_month (mkInp bal tc mr) (solver (mkInp bal tc mr)) with
      | Except.error e => Except.error e
      | Except.ok (plan, kpi) =>
          simGo solver tc mr k (m + 1) (roll_forward bal plan kpi.cash_recovered)
            ({ month := m, balances := bal, recoveries := plan, kpi := kpi } :: acc)

/-- `simulate` (lines 83-104): run `optimise_month` then `roll_forward` for
`months` months, feeding each month's `kpi["cash_recovered"]` back as
`fresh_sales`; an exception from any month propagates to the caller and the
local `history` list is lost with it. -/
def simulate (solver : Solver) (balances : Bal) (months : ℕ) (tc mr : ℚ) :
    Except PyError (List Record) :=
  simGo solver tc mr months 1 balances []

/-- The sample balances of `streamlit_app.py` (lines 22-25), which carry a
`"1_30"` key. -/
def sample : Bal :=
  { current := 8985917.53, one_30 := some 600000, b31_60 := 443229.09,
    b61_90 := 158527.74, b91_120 := 43891.93, b120_plus := 368433.71 }

/-- The all-zero assignment. -/
def zeroSol : Overdue → ℚ := fun _ => 0

/-- `uncollected(b) = balance(b) * (1 - fraction(b))`, the expression the
ageing rule of `roll_forward` is built from. -/
def uncollected (bal : Bal) (plan : Overdue → ℚ) (b : Overdue) : ℚ :=
  bal.ov b * (1 - plan b)

/-- What one pass of the `simulate` loop guarantees of each appended record,
starting from month `m` and balances `bal`: the record stores the
pre-optimisation balances together with the pair `optimise_month` returned on
them, and the next record continues from their roll-forward. -/
def ChainP (solver : Solver) (tc mr : ℚ) : ℕ → Bal → List Record → Prop
  | _, _, [] => True
  | m, bal, rcd :: rest =>
      rcd.month = m ∧ rcd.balances = bal ∧
      optimise_month (mkInp bal tc mr) (solver (mkInp bal tc mr)) =
        Except.ok (rcd.recoveries, rcd.kpi) ∧
      ChainP solver tc mr (m + 1) (roll_forward bal rcd.recoveries rcd.kpi.cash_recovered) rest

/-- The call of testable property 1 of the spec: `target_current` already met
(`current / total`) and the 120-plus cap at `1.0`, default weights, no
absolute cap. -/
def mkC6 (bal : Bal) : LPInput :=
  { bal := bal, target_current := bal.current / bal.total, max_120p_ratio := 1,
    max_120p_amount := none, weights := defaultWeights }

/-- A solver that reports infeasibility on every input. -/
def failSolver : Solver := fun _ => none

/-- A concrete five-bucket balance vector with total 1. -/
def wBal : Bal :=
  { current := 1, one_30 := none, b31_60 := 0, b61_90 := 0, b91_120 := 0, b120_plus := 0 }

/-- A solver that always answers with the all-zero assignment. -/
def wSolver : Solver := fun _ => some zeroSol

/-- The first record of the two-month run of `wSolver` on `wBal`. -/
def wRecord : Record :=
  { month := 1, balances := wBal, recoveries := recOf zeroSol,
    kpi := mkKpi (mkInp wBal 0 1) zeroSol }

/-- The second record of the two-month run of `wSolver` on `wBal`: the
roll-forward of `wBal` under the zero plan is `wBal` again. -/
def wRecord2 : Record :=
  { month := 2, balances := wBal, recoveries := recOf zeroSol,
    kpi := mkKpi (mkInp wBal 0 1) zeroSol }

/-- A concrete input carrying the optional absolute cap. -/
def c1Inp : LPInput :=
  { bal := { current := 100, one_30 := none, b31_60 := 0, b61_90 := 0, b91_120 := 0,
             b120_plus := 0 },
    target_current := 1 / 2, max_120p_ratio := 1 / 2, max_120p_amount := some 50,
    weights := defaultWeights }

/-- An infeasible input: reaching 200 in `current` is impossible when at most
100 can be collected. -/
def inpA : LPInput :=
  mkInp { current := 0, one_30 := none, b31_60 := 100, b61_90 := 0, b91_120 := 0,
          b120_plus := 0 } 2 1

/-- A second infeasible input with different target and total. -/
def inpB : LPInput :=
  mkInp { current := 0, one_30 := none, b31_60 := 200, b61_90 := 0, b91_120 := 0,
          b120_plus := 0 } 3 1

/-- Balances making buckets `31_60` and `61_90` equally costly per unit of
cash under the default weights: 1.0/100 = 1.5/150. -/
def balT : Bal :=
  { current := 0, one_30 := none, b31_60 := 100, b61_90 := 150, b91_120 := 0,
    b120_plus := 0 }

/-- `balT` with the lower target 2/5 (cash needed: 100). -/
def inpT1 : LPInput := mkInp balT (2 / 5) 1

/-- `balT` with the higher target 3/5 (cash needed: 150). -/
def inpT2 : LPInput := mkInp balT (3 / 5) 1

/-- Collect bucket `31_60` fully and nothing else. -/
def solA : Overdue → ℚ
  | Overdue.b31_60 => 1
  | _ => 0

/-- Collect bucket `61_90` fully and nothing else. -/
def solB : Overdue → ℚ
  | Overdue.b61_90 => 1
  | _ => 0

/-- An all-zero balance vector: total exposure 0. -/
def inpZero : LPInput :=
  mkInp { current := 0, one_30 := none, b31_60 := 0, b61_90 := 0, b91_120 := 0,
          b120_plus := 0 } (1 / 2) (1 / 2)

/-- An input with a negative bucket balance. -/
def inpNeg : LPInput :=
  mkInp { current := 100, one_30 := none, b31_60 := -50, b61_90 := 0, b91_120 := 0,
          b120_plus := 0 } 0 1

/-- An input whose target lies outside [0,1]. -/
def inpBadT : LPInput :=
  mkInp { current := 100, one_30 := none, b31_60 := 0, b61_90 := 0, b91_120 := 0,
          b120_plus := 0 } (-1) 1

/-- A balance vector on which one month of the zero plan changes the book. -/
def balB : Bal :=
  { current := 100, one_30 := none, b31_60 := 100, b61_90 := 0, b91_120 := 0,
    b120_plus := 0 }

/-- The roll-forward of `balB` under the zero plan. -/
def balB2 : Bal :=
  { current := 100, one_30 := none, b31_60 := 0, b61_90 := 100, b91_120 := 0,
    b120_plus := 0 }

/-- A solver that solves the first month on `balB` and reports infeasibility
from the second month on. -/
def okThenFail : Solver := fun inp => if inp.bal = balB then some zeroSol else none

/-- Build an `LPInput` from all five call arguments. -/
def mkFull (bal : Bal) (tc mr : ℚ) (amt : Option ℚ) (w : Overdue → ℚ) : LPInput :=
  { bal := bal, target_current := tc, max_120p_ratio := mr, max_120p_amount := amt,
    weights := w }
theorem rnd_le (x : ℚ) : (rnd x : ℚ) ≤ x + 1 / 2 := by
  unfold rnd
  split_ifs with h1 h2 h3
  · have := Int.floor_le x; linarith
  · push_cast; linarith
  · have := Int.floor_le x; linarith
  · push_cast; linarith

theorem rnd_ge (x : ℚ) : x - 1 / 2 ≤ (rnd x : ℚ) := by
  unfold rnd
  split_ifs with h1 h2 h3
  · linarith
  · have := Int.lt_floor_add_one x; push_cast; linarith
  · linarith
  · push_cast; linarith

theorem rnd_nonneg {x : ℚ} (hx : 0 ≤ x) : 0 ≤ rnd x := by
  have hf : (0 : ℤ) ≤ ⌊x⌋ := Int.floor_nonneg.mpr hx
  unfold rnd
  split_ifs <;> omega

theorem rnd_le_int {x : ℚ} {n : ℤ} (hx : x ≤ n) : rnd x ≤ n := by
  have hf : ⌊x⌋ ≤ n := by
    have := Int.floor_le_floor hx
    simpa using this
  unfold rnd
  split_ifs with h1 h2 h3
  · exact hf
  · -- here 1/2 < x - ⌊x⌋, so ⌊x⌋ < x ≤ n, hence ⌊x⌋ + 1 ≤ n
    have hlt : (⌊x⌋ : ℚ) < x := by linarith
    have : (⌊x⌋ : ℚ) < (n : ℚ) := lt_of_lt_of_le hlt hx
    have : ⌊x⌋ < n := by exact_mod_cast this
    omega
  · exact hf
  · have hhalf : x - ⌊x⌋ = 1 / 2 := le_antisymm (not_lt.mp h2) (not_lt.mp h1)
    have hlt : (⌊x⌋ : ℚ) < x := by linarith
    have : (⌊x⌋ : ℚ) < (n : ℚ) := lt_of_lt_of_le hlt hx
    have : ⌊x⌋ < n := by exact_mod_cast this
    omega

theorem round_to_le (d : ℕ) (x : ℚ) : round_to d x ≤ x + 1 / (2 * 10 ^ d) := by
  have hp : (0 : ℚ) < 10 ^ d := by positivity
  unfold round_to
  rw [div_le_iff₀ hp]
  have := rnd_le (x * 10 ^ d)
  have h2 : (x + 1 / (2 * 10 ^ d)) * 10 ^ d = x * 10 ^ d + 1 / 2 := by
    field_simp; ring
  linarith [this, h2.ge]

theorem round_to_ge (d : ℕ) (x : ℚ) : x - 1 / (2 * 10 ^ d) ≤ round_to d x := by
  have hp : (0 : ℚ) < 10 ^ d := by positivity
  unfold round_to
  rw [le_div_iff₀ hp]
  have := rnd_ge (x * 10 ^ d)
  have h2 : (x - 1 / (2 * 10 ^ d)) * 10 ^ d = x * 10 ^ d - 1 / 2 := by
    field_simp; ring
  linarith [this, h2.le]

theorem round_to_nonneg {d : ℕ} {x : ℚ} (hx : 0 ≤ x) : 0 ≤ round_to d x := by
  have hp : (0 : ℚ) < 10 ^ d := by positivity
  have h0 : 0 ≤ x * 10 ^ d := by positivity
  have := rnd_nonneg h0
  unfold round_to
  positivity

theorem round_to_le_one {d : ℕ} {x : ℚ} (hx : x ≤ 1) : round_to d x ≤ 1 := by
  have hp : (0 : ℚ) < 10 ^ d := by positivity
  have hle : x * 10 ^ d ≤ ((10 ^ d : ℤ) : ℚ) := by
    push_cast
    nlinarith
  have h := rnd_le_int hle
  unfold round_to
  rw [div_le_one hp]
  exact_mod_cast h


theorem rnd_intCast (n : ℤ) : rnd (n : ℚ) = n := by
  unfold rnd
  simp [Int.floor_intCast]

theorem round_to_zero (d : ℕ) : round_to d 0 = 0 := by
  unfold round_to
  have h : ((0 : ℚ) * 10 ^ d) = ((0 : ℤ) : ℚ) := by push_cast; ring
  rw [h, rnd_intCast]
  simp

theorem round_to_one (d : ℕ) : round_to d 1 = 1 := by
  unfold round_to
  have h : ((1 : ℚ) * 10 ^ d) = (((10 : ℤ) ^ d : ℤ) : ℚ) := by push_cast; ring
  rw [h, rnd_intCast]
  have hp : (0 : ℚ) < 10 ^ d := by positivity
  push_cast
  field_simp

theorem round_to4_le (x : ℚ) : round_to 4 x ≤ x + 1 / 20000 := by
  have := round_to_le 4 x
  norm_num at this
  linarith

theorem round_to4_ge (x : ℚ) : x - 1 / 20000 ≤ round_to 4 x := by
  have := round_to_ge 4 x
  norm_num at this
  linarith

theorem optimise_month_error {inp : LPInput} {solres : Option (Overdue → ℚ)} {e : PyError}
    (h : optimise_month inp solres = Except.error e) :
    e = PyError.runtimeError "No feasible plan for given targets." ∨
      e = PyError.zeroDivisionError := by
  cases solres with
  | none =>
      simp only [optimise_month, Except.error.injEq] at h
      exact Or.inl h.symm
  | some sol =>
      simp only [optimise_month] at h
      by_cases ht : inp.bal.total = 0
      · rw [if_pos ht] at h
        simp only [Except.error.injEq] at h
        exact Or.inr h.symm
      · rw [if_neg ht] at h
        cases h

theorem simGo_ok {solver : Solver} {tc mr : ℚ} :
    ∀ (k m : ℕ) (bal : Bal) (acc h : List Record),
      simGo solver tc mr k m bal acc = Except.ok h →
      ∃ t, h = acc.reverse ++ t ∧ t.length = k ∧ ChainP solver tc mr m bal t := by
  intro k
  induction k with
  | zero =>
      intro m bal acc h hok
      refine ⟨[], ?_, rfl, trivial⟩
      simp only [simGo, Except.ok.injEq] at hok
      simp [hok.symm]
  | succ n ih =>
      intro m bal acc h hok
      rw [simGo] at hok
      cases hopt : optimise_month (mkInp bal tc mr) (solver (mkInp bal tc mr)) with
      | error e => rw [hopt] at hok; cases hok
      | ok pk =>
          obtain ⟨plan, kpi⟩ := pk
          rw [hopt] at hok
          obtain ⟨t, ht, hlen, hch⟩ := ih _ _ _ _ hok
          refine ⟨{ month := m, balances := bal, recoveries := plan, kpi := kpi } :: t,
            ?_, by simp [hlen], ?_⟩
          · rw [ht]; simp
          · exact ⟨rfl, rfl, hopt, hch⟩

theorem simGo_error {solver : Solver} {tc mr : ℚ} :
    ∀ (k m : ℕ) (bal : Bal) (acc : List Record) (e : PyError),
      simGo solver tc mr k m bal acc = Except.error e →
      e = PyError.runtimeError "No feasible plan for given targets." ∨
        e = PyError.zeroDivisionError := by
  intro k
  induction k with
  | zero => intro m bal acc e h; cases h
  | succ n ih =>
      intro m bal acc e h
      rw [simGo] at h
      cases hopt : optimise_month (mkInp bal tc mr) (solver (mkInp bal tc mr)) with
      | error e2 =>
          rw [hopt] at h
          simp only [Except.error.injEq] at h
          subst h
          exact optimise_month_error hopt
      | ok pk =>
          obtain ⟨plan, kpi⟩ := pk
          rw [hopt] at h
          exact ih _ _ _ _ h

theorem chainP_month {solver : Solver} {tc mr : ℚ} :
    ∀ (t : List Record) (m : ℕ) (bal : Bal), ChainP solver tc mr m bal t →
      ∀ (i : ℕ) (hi : i < t.length), (t.get ⟨i, hi⟩).month = m + i := by
  intro t
  induction t with
  | nil => intro m bal _ i hi; cases hi
  | cons r rest ih =>
      intro m bal hch i hi
      obtain ⟨hm, _, _, htail⟩ := hch
      cases i with
      | zero => simpa using hm
      | succ j =>
          have := ih (m + 1) _ htail j (Nat.lt_of_succ_lt_succ hi)
          simpa [Nat.add_assoc, Nat.add_comm 1 j] using this

theorem chainP_opt {solver : Solver} {tc mr : ℚ} :
    ∀ (t : List Record) (m : ℕ) (bal : Bal), ChainP solver tc mr m bal t →
      ∀ (i : ℕ) (hi : i < t.length),
        optimise_month (mkInp (t.get ⟨i, hi⟩).balances tc mr)
            (solver (mkInp (t.get ⟨i, hi⟩).balances tc mr)) =
          Except.ok ((t.get ⟨i, hi⟩).recoveries, (t.get ⟨i, hi⟩).kpi) := by
  intro t
  induction t with
  | nil => intro m bal _ i hi; cases hi
  | cons r rest ih =>
      intro m bal hch i hi
      obtain ⟨_, hb, hopt, htail⟩ := hch
      cases i with
      | zero => simpa [hb] using hopt
      | succ j => exact ih (m + 1) _ htail j (Nat.lt_of_succ_lt_succ hi)

theorem chainP_step {solver : Solver} {tc mr : ℚ} :
    ∀ (t : List Record) (m : ℕ) (bal : Bal), ChainP solver tc mr m bal t →
      ∀ (i : ℕ) (hi1 : i + 1 < t.length) (hi0 : i < t.length),
        (t.get ⟨i + 1, hi1⟩).balances =
          roll_forward (t.get ⟨i, hi0⟩).balances (t.get ⟨i, hi0⟩).recoveries
            (t.get ⟨i, hi0⟩).kpi.cash_recovered := by
  intro t
  induction t with
  | nil => intro m bal _ i hi1 hi0; cases hi0
  | cons r rest ih =>
      intro m bal hch i hi1 hi0
      obtain ⟨_, hb, _, htail⟩ := hch
      cases i with
      | zero =>
          cases rest with
          | nil => exact absurd hi1 (by simp)
          | cons r2 rest2 =>
              obtain ⟨_, hb2, _, _⟩ := htail
              simpa [hb] using hb2
      | succ j =>
          exact ih (m + 1) _ htail j (Nat.lt_of_succ_lt_succ hi1) (Nat.lt_of_succ_lt_succ hi0)

theorem chainP_head {solver : Solver} {tc mr : ℚ} {m : ℕ} {bal : Bal} {r : Record}
    {rest : List Record} (h : ChainP solver tc mr m bal (r :: rest)) : r.balances = bal :=
  h.2.1

/-- C3 counterexample: on the sample input, which carries a `1_30` bucket of
600000, `roll_forward` puts 0 — not the uncollected `1_30` balance — into the
new `31_60` bucket. -/
theorem roll_forward_one_30_cex :
    sample.one_30 = some 600000 ∧
    (roll_forward sample zeroSol 0).b31_60 ≠ sample.one_30.getD 0 * (1 - 0) := by
  refine ⟨rfl, ?_⟩
  norm_num [roll_forward, sample, zeroSol]

/-- C3 (amended): `roll_forward` ages every uncollected overdue balance one
bucket step — `new(120+) = uncollected(120+) + uncollected(91-120)`,
`new(91-120) = uncollected(61-90)`, `new(61-90) = uncollected(31-60)` — puts
fresh sales into `current`, and sets the new `31_60` bucket to 0
unconditionally: an input `1_30` balance is ignored and its key dropped. -/
theorem roll_forward_ageing_rule (bal : Bal) (plan : Overdue → ℚ) (fresh : ℚ) :
    (roll_forward bal plan fresh).b120_plus =
        uncollected bal plan Overdue.b120_plus + uncollected bal plan Overdue.b91_120 ∧
    (roll_forward bal plan fresh).b91_120 = uncollected bal plan Overdue.b61_90 ∧
    (roll_forward bal plan fresh).b61_90 = uncollected bal plan Overdue.b31_60 ∧
    (roll_forward bal plan fresh).b31_60 = 0 ∧
    (roll_forward bal plan fresh).current = bal.current + fresh ∧
    (roll_forward bal plan fresh).one_30 = none :=
  ⟨rfl, rfl, rfl, rfl, rfl, rfl⟩

/-- C2 counterexample: on the sample input (which has a `1_30` balance of
600000) with the zero plan and `fresh_sales` equal to the plan's recovered
cash, the total balance after `roll_forward` differs from the total before. -/
theorem roll_forward_conservation_cex :
    cash_sum sample zeroSol = 0 ∧
    (roll_forward sample zeroSol (cash_sum sample zeroSol)).total ≠ sample.total := by
  constructor
  · norm_num [cash_sum, sample, zeroSol]
  · norm_num [roll_forward, Bal.total, sample, cash_sum, zeroSol]

/-- C2 (amended): when `fresh_sales` equals the recovered cash
`Σ bal[b] * plan[b]` and the input vector has no `1_30` balance (key absent or
zero), the sum of all bucket balances after `roll_forward` equals the sum
before, exactly. -/
theorem roll_forward_conservation (bal : Bal) (plan : Overdue → ℚ) (fresh : ℚ)
    (h130 : bal.one_30.getD 0 = 0) (hfresh : fresh = cash_sum bal plan) :
    (roll_forward bal plan fresh).total = bal.total := by
  subst hfresh
  simp only [roll_forward, Bal.total, cash_sum, Option.getD_none, h130]
  ring

/-- Witness for C2 (amended) at a concrete five-bucket vector. -/
theorem roll_forward_conservation_witness :
    (roll_forward wBal zeroSol (cash_sum wBal zeroSol)).total = wBal.total :=
  roll_forward_conservation wBal zeroSol _ (by simp [wBal]) rfl

/-- C10: a `1_30` key in the input enters the total exposure of
`optimise_month`, no decision variable is created for it (the returned plan's
keys are exactly the four older overdue buckets, so `1_30` never appears),
`roll_forward` returns a vector without the `1_30` key, and under
`fresh_sales = cash recovered` one period removes exactly the `1_30` balance
from the book. -/
theorem one_30_dropped (bal : Bal) (x : ℚ) (plan : Overdue → ℚ) (fresh : ℚ)
    (hx : bal.one_30 = some x) :
    bal.total =
      bal.current + x + bal.b31_60 + bal.b61_90 + bal.b91_120 + bal.b120_plus ∧
    (planAssoc plan).map Prod.fst = ["31_60", "61_90", "91_120", "120_plus"] ∧
    "1_30" ∉ (planAssoc plan).map Prod.fst ∧
    (roll_forward bal plan fresh).one_30 = none ∧
    (fresh = cash_sum bal plan →
      (roll_forward bal plan fresh).total = bal.total - x) := by
  refine ⟨?_, rfl, by simp [planAssoc], rfl, ?_⟩
  · simp [Bal.total, hx]
  · intro hfresh
    subst hfresh
    simp only [roll_forward, Bal.total, cash_sum, Option.getD_none, hx, Option.getD_some]
    ring

/-- Witness for C10 at the sample data with the zero plan. -/
theorem one_30_dropped_witness :
    sample.total =
      sample.current + 600000 + sample.b31_60 + sample.b61_90 + sample.b91_120 +
        sample.b120_plus ∧
    (planAssoc zeroSol).map Prod.fst = ["31_60", "61_90", "91_120", "120_plus"] ∧
    "1_30" ∉ (planAssoc zeroSol).map Prod.fst ∧
    (roll_forward sample zeroSol 0).one_30 = none ∧
    (0 = cash_sum sample zeroSol →
      (roll_forward sample zeroSol 0).total = sample.total - 600000) :=
  one_30_dropped sample 600000 zeroSol 0 rfl

theorem inpA_infeasible : ¬ ∃ r, Feasible inpA r := by
  rintro ⟨r, hb, hc, -, -⟩
  have h1 := (hb Overdue.b31_60).2
  norm_num [inpA, mkInp, Bal.total, projected_current] at hc
  linarith

theorem inpB_infeasible : ¬ ∃ r, Feasible inpB r := by
  rintro ⟨r, hb, hc, -, -⟩
  have h1 := (hb Overdue.b31_60).2
  norm_num [inpB, mkInp, Bal.total, projected_current] at hc
  linarith

/-- C4 counterexample: two infeasible inputs with different targets and
different total exposures make `optimise_month` fail with literally the same
error value, so the error carries neither the target values nor the total
exposure (nor any period index) as context. -/
theorem infeasible_error_context_cex :
    (¬ ∃ r, Feasible inpA r) ∧ (¬ ∃ r, Feasible inpB r) ∧
    inpA.target_current ≠ inpB.target_current ∧
    inpA.bal.total ≠ inpB.bal.total ∧
    optimise_month inpA none = optimise_month inpB none := by
  refine ⟨inpA_infeasible, inpB_infeasible, ?_, ?_, rfl⟩
  · norm_num [inpA, inpB, mkInp]
  · norm_num [inpA, inpB, mkInp, Bal.total]

theorem failSolver_sound : SoundSolver failSolver := by
  intro inp sol h
  simp [failSolver] at h

/-- C4 (amended): whenever no assignment of fractions in [0,1] satisfies the
constraints, `optimise_month` (with any sound solver) raises the
`RuntimeError` with the fixed message `No feasible plan for given targets.` —
a distinct error rather than a silent partial plan — but that error carries
only this constant message: no target values, no total exposure and no period
index. -/
theorem infeasible_error_fixed_message (solver : Solver) (inp : LPInput)
    (hs : SoundSolver solver) (hinf : ¬ ∃ r, Feasible inp r) :
    optimise_month inp (solver inp) =
      Except.error (PyError.runtimeError "No feasible plan for given targets.") := by
  cases hsol : solver inp with
  | none => rfl
  | some sol => exact absurd ⟨sol, (hs inp sol hsol).1⟩ hinf

/-- Witness for C4 (amended) at the concrete infeasible input `inpA`. -/
theorem infeasible_error_fixed_message_witness :
    optimise_month inpA (failSolver inpA) =
      Except.error (PyError.runtimeError "No feasible plan for given targets.") :=
  infeasible_error_fixed_message failSolver inpA failSolver_sound inpA_infeasible

theorem feasible_inpT1_solA : Feasible inpT1 solA := by
  refine ⟨fun b => by cases b <;> norm_num [solA], ?_, ?_, ?_⟩
  · norm_num [inpT1, mkInp, balT, Bal.total, projected_current, solA]
  · norm_num [inpT1, mkInp, balT, Bal.total, solA]
  · exact fun a ha => Option.noConfusion ha

theorem optimal_inpT1_solA : Optimal inpT1 solA := by
  refine ⟨feasible_inpT1_solA, ?_⟩
  rintro r ⟨hb, hc, -, -⟩
  have h91 := (hb Overdue.b91_120).1
  have h120 := (hb Overdue.b120_plus).1
  norm_num [inpT1, mkInp, balT, Bal.total, projected_current] at hc
  norm_num [cost, defaultWeights, solA, inpT1, mkInp]
  linarith

theorem feasible_inpT2_solB : Feasible inpT2 solB := by
  refine ⟨fun b => by cases b <;> norm_num [solB], ?_, ?_, ?_⟩
  · norm_num [inpT2, mkInp, balT, Bal.total, projected_current, solB]
  · norm_num [inpT2, mkInp, balT, Bal.total, solB]
  · exact fun a ha => Option.noConfusion ha

theorem optimal_inpT2_solB : Optimal inpT2 solB := by
  refine ⟨feasible_inpT2_solB, ?_⟩
  rintro r ⟨hb, hc, -, -⟩
  have h91 := (hb Overdue.b91_120).1
  have h120 := (hb Overdue.b120_plus).1
  norm_num [inpT2, mkInp, balT, Bal.total, projected_current] at hc
  norm_num [cost, defaultWeights, solB, inpT2, mkInp]
  linarith

/-- C7 counterexample: with balances making the `31_60` and `61_90` buckets
equally costly per unit of recovered cash, raising the target from 2/5 to 3/5
admits globally optimal solutions in which the `31_60` recovery fraction drops
from 1 to 0: the individual fractions of optimal solutions are not monotone in
the target. -/
theorem monotonicity_fractions_cex :
    Optimal inpT1 solA ∧ Optimal inpT2 solB ∧
    inpT1.target_current < inpT2.target_current ∧
    inpT1.bal = inpT2.bal ∧ inpT1.max_120p_ratio = inpT2.max_120p_ratio ∧
    inpT1.max_120p_amount = inpT2.max_120p_amount ∧ inpT1.weights = inpT2.weights ∧
    recOf solB Overdue.b31_60 < recOf solA Overdue.b31_60 := by
  refine ⟨optimal_inpT1_solA, optimal_inpT2_solB, by norm_num [inpT1, inpT2, mkInp],
    rfl, rfl, rfl, rfl, ?_⟩
  show round_to 4 (solB Overdue.b31_60) < round_to 4 (solA Overdue.b31_60)
  rw [show solB Overdue.b31_60 = 0 from rfl, show solA Overdue.b31_60 = 1 from rfl,
    round_to_zero, round_to_one]
  norm_num

/-- C7 (amended): raising `target_current` with all other inputs fixed never
decreases the optimal objective value (the minimum weighted collection
effort); the individual fractions need not be monotone when the optimum is not
unique. -/
theorem monotonicity_objective (bal : Bal) (w : Overdue → ℚ) (mr : ℚ) (amt : Option ℚ)
    (t1 t2 : ℚ) (sol1 sol2 : Overdue → ℚ) (htot : 0 ≤ bal.total) (ht : t1 ≤ t2)
    (h1 : Optimal (mkFull bal t1 mr amt w) sol1)
    (h2 : Optimal (mkFull bal t2 mr amt w) sol2) :
    cost w sol1 ≤ cost w sol2 := by
  apply h1.2
  obtain ⟨hb, hc, h120, hamt⟩ := h2.1
  exact ⟨hb, le_trans (mul_le_mul_of_nonneg_right ht htot) hc, h120, hamt⟩

/-- Witness for C7 (amended) at the concrete pair of optimal solves. -/
theorem monotonicity_objective_witness :
    cost defaultWeights solA ≤ cost defaultWeights solB :=
  monotonicity_objective balT defaultWeights 1 none (2 / 5) (3 / 5) solA solB
    (by norm_num [balT, Bal.total]) (by norm_num) optimal_inpT1_solA optimal_inpT2_solB

/-- C6: when the target is already met (`target_current = current/total`) and
the 120-plus cap is 1.0, the zero assignment is a global optimum of the LP (so
the solve succeeds), every global optimum is the zero assignment, and the call
returns the all-zero recovery plan. -/
theorem already_met_zero_plan (bal : Bal) (hnn : bal.Nonneg) (htot : 0 < bal.total) :
    Optimal (mkC6 bal) zeroSol ∧
    ∀ sol, Optimal (mkC6 bal) sol →
      optimise_month (mkC6 bal) (some sol) =
        Except.ok (recOf sol, mkKpi (mkC6 bal) sol) ∧
      ∀ b, sol b = 0 ∧ recOf sol b = 0 := by
  obtain ⟨hcur, h130, h31, h61, h91, h120⟩ := hnn
  have hfeas0 : Feasible (mkC6 bal) zeroSol := by
    refine ⟨fun b => by norm_num [zeroSol], ?_, ?_, fun a ha => Option.noConfusion ha⟩
    · show bal.current / bal.total * bal.total ≤ projected_current bal zeroSol
      rw [div_mul_cancel₀ _ htot.ne']
      simp [projected_current, zeroSol]
    · show bal.b120_plus * (1 - zeroSol Overdue.b120_plus) ≤ 1 * bal.total
      have hb : bal.b120_plus ≤ bal.total := by
        unfold Bal.total
        linarith
      simp only [zeroSol]
      linarith
  have hmin : ∀ r, Feasible (mkC6 bal) r →
      cost defaultWeights zeroSol ≤ cost defaultWeights r := by
    intro r hr
    have b1 := (hr.1 Overdue.b31_60).1
    have b2 := (hr.1 Overdue.b61_90).1
    have b3 := (hr.1 Overdue.b91_120).1
    have b4 := (hr.1 Overdue.b120_plus).1
    simp only [cost, zeroSol, defaultWeights]
    linarith
  refine ⟨⟨hfeas0, hmin⟩, ?_⟩
  intro sol hopt
  have hcost : cost defaultWeights sol ≤ 0 := by
    have h := hopt.2 zeroSol hfeas0
    have h0 : cost defaultWeights zeroSol = 0 := by
      simp [cost, zeroSol]
    calc cost defaultWeights sol ≤ cost defaultWeights zeroSol := h
    _ = 0 := h0
  have s1 := (hopt.1.1 Overdue.b31_60).1
  have s2 := (hopt.1.1 Overdue.b61_90).1
  have s3 := (hopt.1.1 Overdue.b91_120).1
  have s4 := (hopt.1.1 Overdue.b120_plus).1
  have hz : ∀ b, sol b = 0 := by
    simp only [cost, defaultWeights] at hcost
    intro b
    cases b <;> linarith
  constructor
  · have hne : (mkC6 bal).bal.total ≠ 0 := htot.ne'
    simp [optimise_month, hne]
  · intro b
    refine ⟨hz b, ?_⟩
    show round_to 4 (sol b) = 0
    rw [hz b, round_to_zero]

/-- Witness for C6 at the sample balances. -/
theorem already_met_zero_plan_witness :
    Optimal (mkC6 sample) zeroSol ∧
    ∀ sol, Optimal (mkC6 sample) sol →
      optimise_month (mkC6 sample) (some sol) =
        Except.ok (recOf sol, mkKpi (mkC6 sample) sol) ∧
      ∀ b, sol b = 0 ∧ recOf sol b = 0 :=
  already_met_zero_plan sample (by norm_num [Bal.Nonneg, sample])
    (by norm_num [Bal.total, sample])

theorem optimal_inpZero : Optimal inpZero zeroSol := by
  constructor
  · refine ⟨fun b => by norm_num [zeroSol], ?_, ?_, fun a ha => Option.noConfusion ha⟩
    · norm_num [inpZero, mkInp, Bal.total, projected_current, zeroSol]
    · norm_num [inpZero, mkInp, Bal.total, zeroSol]
  · rintro r ⟨hb, -, -, -⟩
    have b1 := (hb Overdue.b31_60).1
    have b2 := (hb Overdue.b61_90).1
    have b3 := (hb Overdue.b91_120).1
    have b4 := (hb Overdue.b120_plus).1
    simp only [cost, zeroSol, defaultWeights, inpZero, mkInp]
    linarith

/-- C8 counterexample: the all-zero balance vector (total exposure 0) is not
rejected before the solve — its LP is well-posed and optimally solved by the
zero assignment — and the call then fails with a division error while
computing the KPIs, not with any validation error raised before the solver. -/
theorem validation_before_solver_cex :
    Optimal inpZero zeroSol ∧
    optimise_month inpZero (some zeroSol) = Except.error PyError.zeroDivisionError := by
  refine ⟨optimal_inpZero, ?_⟩
  have ht : inpZero.bal.total = 0 := by norm_num [inpZero, mkInp, Bal.total]
  simp [optimise_month, ht]

/-- C8 (amended): the code performs no input validation.  A zero total
exposure reaches the solver (the zero assignment even solves that LP) and then
surfaces as a `ZeroDivisionError` in the KPI computation; a negative bucket
balance and a target outside [0,1] are passed to the solver unchanged and the
calls succeed; a zero period count returns an empty history with no error. -/
theorem no_input_validation :
    (Optimal inpZero zeroSol ∧
      optimise_month inpZero (some zeroSol) = Except.error PyError.zeroDivisionError) ∧
    (Optimal inpNeg zeroSol ∧
      optimise_month inpNeg (some zeroSol) =
        Except.ok (recOf zeroSol, mkKpi inpNeg zeroSol)) ∧
    (Optimal inpBadT zeroSol ∧
      optimise_month inpBadT (some zeroSol) =
        Except.ok (recOf zeroSol, mkKpi inpBadT zeroSol)) ∧
    simulate failSolver sample 0 (965 / 1000) (2 / 100) = Except.ok [] := by
  have hZ : inpZero.bal.total = 0 := by norm_num [inpZero, mkInp, Bal.total]
  have hN : inpNeg.bal.total ≠ 0 := by norm_num [inpNeg, mkInp, Bal.total]
  have hB : inpBadT.bal.total ≠ 0 := by norm_num [inpBadT, mkInp, Bal.total]
  refine ⟨⟨optimal_inpZero, by simp [optimise_month, hZ]⟩, ⟨?_, by simp [optimise_month, hN]⟩,
    ⟨?_, by simp [optimise_month, hB]⟩, rfl⟩
  · constructor
    · refine ⟨fun b => by norm_num [zeroSol], ?_, ?_, fun a ha => Option.noConfusion ha⟩
      · norm_num [inpNeg, mkInp, Bal.total, projected_current, zeroSol]
      · norm_num [inpNeg, mkInp, Bal.total, zeroSol]
    · rintro r ⟨hb, -, -, -⟩
      have b1 := (hb Overdue.b31_60).1
      have b2 := (hb Overdue.b61_90).1
      have b3 := (hb Overdue.b91_120).1
      have b4 := (hb Overdue.b120_plus).1
      simp only [cost, zeroSol, defaultWeights, inpNeg, mkInp]
      linarith
  · constructor
    · refine ⟨fun b => by norm_num [zeroSol], ?_, ?_, fun a ha => Option.noConfusion ha⟩
      · norm_num [inpBadT, mkInp, Bal.total, projected_current, zeroSol]
      · norm_num [inpBadT, mkInp, Bal.total, zeroSol]
    · rintro r ⟨hb, -, -, -⟩
      have b1 := (hb Overdue.b31_60).1
      have b2 := (hb Overdue.b61_90).1
      have b3 := (hb Overdue.b91_120).1
      have b4 := (hb Overdue.b120_plus).1
      simp only [cost, zeroSol, defaultWeights, inpBadT, mkInp]
      linarith

theorem okThenFail_balB (tc mr : ℚ) : okThenFail (mkInp balB tc mr) = some zeroSol := by
  simp [okThenFail, mkInp]

theorem opt_balB : optimise_month (mkInp balB (1 / 2) 1) (some zeroSol) =
    Except.ok (recOf zeroSol, mkKpi (mkInp balB (1 / 2) 1) zeroSol) := by
  have h : (mkInp balB (1 / 2) 1).bal.total ≠ 0 := by norm_num [mkInp, balB, Bal.total]
  show (if (mkInp balB (1 / 2) 1).bal.total = 0 then Except.error PyError.zeroDivisionError
    else Except.ok (recOf zeroSol, mkKpi (mkInp balB (1 / 2) 1) zeroSol)) = _
  rw [if_neg h]

theorem roll_balB :
    roll_forward balB (recOf zeroSol) ((mkKpi (mkInp balB (1 / 2) 1) zeroSol).cash_recovered) =
      balB2 := by
  simp [roll_forward, balB, balB2, mkKpi, mkInp, cash_sum, recOf, zeroSol, round_to_zero]

theorem okThenFail_balB2 (tc mr : ℚ) : okThenFail (mkInp balB2 tc mr) = none := by
  have h : balB2 ≠ balB := by
    simp [balB2, balB]
  simp [okThenFail, mkInp, h]

/-- C9 counterexample: a run failing in month 1 and a run failing in month 2
(its month 1 demonstrably succeeded) return the identical exception value —
the fixed-message `RuntimeError` — with no history attached, so the caller can
recover neither which period failed nor the records before the failure. -/
theorem simulate_failure_signal_cex :
    simulate failSolver balB 3 (1 / 2) 1 =
      Except.error (PyError.runtimeError "No feasible plan for given targets.") ∧
    simulate okThenFail balB 3 (1 / 2) 1 =
      Except.error (PyError.runtimeError "No feasible plan for given targets.") ∧
    optimise_month (mkInp balB (1 / 2) 1) (okThenFail (mkInp balB (1 / 2) 1)) =
      Except.ok (recOf zeroSol, mkKpi (mkInp balB (1 / 2) 1) zeroSol) := by
  refine ⟨rfl, ?_, by rw [okThenFail_balB]; exact opt_balB⟩
  show simGo okThenFail (1 / 2) 1 3 1 balB [] = _
  rw [show (3 : ℕ) = Nat.succ 2 from rfl, simGo, okThenFail_balB, opt_balB]
  show simGo okThenFail (1 / 2) 1 2 2
      (roll_forward balB (recOf zeroSol)
        ((mkKpi (mkInp balB (1 / 2) 1) zeroSol).cash_recovered))
      [{ month := 1, balances := balB, recoveries := recOf zeroSol,
         kpi := mkKpi (mkInp balB (1 / 2) 1) zeroSol }] = _
  rw [roll_balB, show (2 : ℕ) = Nat.succ 1 from rfl, simGo, okThenFail_balB2]
  rfl

/-- C9 (amended): `simulate` never silently truncates — a successful run
returns exactly `months` records, and a failing run propagates the exception
of the first failing month to the caller — but that exception is one of the
two context-free errors of `optimise_month` (the fixed-message `RuntimeError`
or a `ZeroDivisionError`): it names no period index and carries no partial
history. -/
theorem simulate_failure_propagation (solver : Solver) (bal : Bal) (months : ℕ)
    (tc mr : ℚ) :
    (∀ h, simulate solver bal months tc mr = Except.ok h → h.length = months) ∧
    (∀ e, simulate solver bal months tc mr = Except.error e →
      e = PyError.runtimeError "No feasible plan for given targets." ∨
        e = PyError.zeroDivisionError) := by
  constructor
  · intro h hok
    obtain ⟨t, ht, hlen, -⟩ := simGo_ok months 1 bal [] h hok
    simp only [List.reverse_nil, List.nil_append] at ht
    rw [ht]
    exact hlen
  · intro e he
    exact simGo_error months 1 bal [] e he

/-- Witness for C9 (amended): the error of a concrete one-month failing run is
classified by the theorem. -/
theorem simulate_failure_propagation_witness :
    PyError.runtimeError "No feasible plan for given targets." =
        PyError.runtimeError "No feasible plan for given targets." ∨
      PyError.runtimeError "No feasible plan for given targets." =
        PyError.zeroDivisionError :=
  (simulate_failure_propagation failSolver balB 1 (1 / 2) 1).2
    (PyError.runtimeError "No feasible plan for given targets.") rfl

/-- C5: whenever `simulate` returns a history, it holds exactly `months`
records, numbered 1..months in temporal order; each record stores the
pre-optimisation balances together with the exact pair `optimise_month`
returned on those balances, record 1 starts from the input balances, and each
next record's balances are the roll-forward of the previous record's balances,
plan and recovered cash. -/
theorem simulate_history_spec (solver : Solver) (bal0 : Bal) (months : ℕ) (tc mr : ℚ)
    (h : List Record) (hok : simulate solver bal0 months tc mr = Except.ok h) :
    h.length = months ∧
    (∀ (i : ℕ) (hi : i < h.length), (h.get ⟨i, hi⟩).month = i + 1) ∧
    (∀ hi : 0 < h.length, (h.get ⟨0, hi⟩).balances = bal0) ∧
    (∀ (i : ℕ) (hi : i < h.length),
      optimise_month (mkInp (h.get ⟨i, hi⟩).balances tc mr)
          (solver (mkInp (h.get ⟨i, hi⟩).balances tc mr)) =
        Except.ok ((h.get ⟨i, hi⟩).recoveries, (h.get ⟨i, hi⟩).kpi)) ∧
    (∀ (i : ℕ) (hi1 : i + 1 < h.length) (hi0 : i < h.length),
      (h.get ⟨i + 1, hi1⟩).balances =
        roll_forward (h.get ⟨i, hi0⟩).balances (h.get ⟨i, hi0⟩).recoveries
          (h.get ⟨i, hi0⟩).kpi.cash_recovered) := by
  obtain ⟨t, ht, hlen, hch⟩ := simGo_ok months 1 bal0 [] h hok
  simp only [List.reverse_nil, List.nil_append] at ht
  subst ht
  refine ⟨hlen, ?_, ?_, chainP_opt h 1 bal0 hch, chainP_step h 1 bal0 hch⟩
  · intro i hi
    have hm := chainP_month h 1 bal0 hch i hi
    omega
  · intro hi
    cases h with
    | nil => exact absurd hi (by simp)
    | cons r rest => exact chainP_head hch

theorem wTotal : (mkInp wBal 0 1).bal.total ≠ 0 := by
  norm_num [mkInp, wBal, Bal.total]

theorem wOpt : optimise_month (mkInp wBal 0 1) (some zeroSol) =
    Except.ok (recOf zeroSol, mkKpi (mkInp wBal 0 1) zeroSol) := by
  simp [optimise_month, wTotal]

theorem wRoll :
    roll_forward wBal (recOf zeroSol) ((mkKpi (mkInp wBal 0 1) zeroSol).cash_recovered) =
      wBal := by
  simp [roll_forward, wBal, mkKpi, mkInp, cash_sum, recOf, zeroSol, round_to_zero]

theorem wSim : simulate wSolver wBal 2 0 1 = Except.ok [wRecord, wRecord2] := by
  show simGo wSolver 0 1 2 1 wBal [] = Except.ok [wRecord, wRecord2]
  rw [show (2 : ℕ) = Nat.succ 1 from rfl, simGo,
    show wSolver (mkInp wBal 0 1) = some zeroSol from rfl, wOpt]
  show simGo wSolver 0 1 1 2
      (roll_forward wBal (recOf zeroSol) ((mkKpi (mkInp wBal 0 1) zeroSol).cash_recovered))
      [wRecord] = Except.ok [wRecord, wRecord2]
  rw [wRoll, show (1 : ℕ) = Nat.succ 0 from rfl, simGo,
    show wSolver (mkInp wBal 0 1) = some zeroSol from rfl, wOpt]
  show Except.ok ([wRecord2, wRecord].reverse) = Except.ok [wRecord, wRecord2]
  simp

/-- Witness for C5 at a concrete two-month run. -/
theorem simulate_history_spec_witness :
    ([wRecord, wRecord2] : List Record).length = 2 ∧
    (∀ (i : ℕ) (hi : i < ([wRecord, wRecord2] : List Record).length),
      (([wRecord, wRecord2] : List Record).get ⟨i, hi⟩).month = i + 1) ∧
    (∀ hi : 0 < ([wRecord, wRecord2] : List Record).length,
      (([wRecord, wRecord2] : List Record).get ⟨0, hi⟩).balances = wBal) ∧
    (∀ (i : ℕ) (hi : i < ([wRecord, wRecord2] : List Record).length),
      optimise_month
          (mkInp (([wRecord, wRecord2] : List Record).get ⟨i, hi⟩).balances 0 1)
          (wSolver (mkInp (([wRecord, wRecord2] : List Record).get ⟨i, hi⟩).balances 0 1)) =
        Except.ok ((([wRecord, wRecord2] : List Record).get ⟨i, hi⟩).recoveries,
          (([wRecord, wRecord2] : List Record).get ⟨i, hi⟩).kpi)) ∧
    (∀ (i : ℕ) (hi1 : i + 1 < ([wRecord, wRecord2] : List Record).length)
        (hi0 : i < ([wRecord, wRecord2] : List Record).length),
      (([wRecord, wRecord2] : List Record).get ⟨i + 1, hi1⟩).balances =
        roll_forward (([wRecord, wRecord2] : List Record).get ⟨i, hi0⟩).balances
          (([wRecord, wRecord2] : List Record).get ⟨i, hi0⟩).recoveries
          (([wRecord, wRecord2] : List Record).get ⟨i, hi0⟩).kpi.cash_recovered) :=
  simulate_history_spec wSolver wBal 2 0 1 [wRecord, wRecord2] wSim

/-- C1: for every successful call (the solver returned a feasible —
`OPTIMAL` — assignment `sol`, and the total exposure is positive), every
returned recovery fraction lies in [0,1]; the projected current ratio meets
`target_current` exactly for the solver's assignment, and up to a tolerance of
1/10000 for the returned rounded fractions; the uncollected 120-plus ratio
meets `max_120p_ratio` exactly for the solver's assignment and up to 1/10000
for the returned fractions; and when the absolute cap is supplied it holds
exactly for the solver's assignment and up to `total/20000` for the returned
fractions. -/
theorem optimise_month_success_bounds (inp : LPInput) (sol plan : Overdue → ℚ) (kpi : Kpi)
    (hnn : inp.bal.Nonneg) (htot : 0 < inp.bal.total) (hfeas : Feasible inp sol)
    (hok : optimise_month inp (some sol) = Except.ok (plan, kpi)) :
    (∀ b, 0 ≤ plan b ∧ plan b ≤ 1) ∧
    inp.target_current ≤ projected_current inp.bal sol / inp.bal.total ∧
    inp.target_current - 1 / 10000 ≤
      (inp.bal.current + cash_sum inp.bal plan) / inp.bal.total ∧
    inp.bal.b120_plus * (1 - sol Overdue.b120_plus) / inp.bal.total ≤
      inp.max_120p_ratio ∧
    inp.bal.b120_plus * (1 - plan Overdue.b120_plus) / inp.bal.total ≤
      inp.max_120p_ratio + 1 / 10000 ∧
    (∀ a, inp.max_120p_amount = some a →
      inp.bal.b120_plus * (1 - sol Overdue.b120_plus) ≤ a ∧
      inp.bal.b120_plus * (1 - plan Overdue.b120_plus) ≤ a + inp.bal.total / 20000) := by
  have hplan : plan = recOf sol := by
    have hne : inp.bal.total ≠ 0 := htot.ne'
    rw [show optimise_month inp (some sol) =
        (if inp.bal.total = 0 then Except.error PyError.zeroDivisionError
          else Except.ok (recOf sol, mkKpi inp sol)) from rfl, if_neg hne] at hok
    simp only [Except.ok.injEq, Prod.mk.injEq] at hok
    exact hok.1.symm
  subst hplan
  obtain ⟨hb, hc1, hc2, hamt⟩ := hfeas
  obtain ⟨hcur, h130, h31, h61, h91, h120⟩ := hnn
  have hsum : inp.bal.b31_60 + inp.bal.b61_90 + inp.bal.b91_120 + inp.bal.b120_plus ≤
      inp.bal.total := by
    unfold Bal.total
    linarith
  have e31 : inp.bal.b31_60 * (sol Overdue.b31_60 - 1 / 20000) ≤
      inp.bal.b31_60 * recOf sol Overdue.b31_60 :=
    mul_le_mul_of_nonneg_left (round_to4_ge _) h31
  have e61 : inp.bal.b61_90 * (sol Overdue.b61_90 - 1 / 20000) ≤
      inp.bal.b61_90 * recOf sol Overdue.b61_90 :=
    mul_le_mul_of_nonneg_left (round_to4_ge _) h61
  have e91 : inp.bal.b91_120 * (sol Overdue.b91_120 - 1 / 20000) ≤
      inp.bal.b91_120 * recOf sol Overdue.b91_120 :=
    mul_le_mul_of_nonneg_left (round_to4_ge _) h91
  have e120 : inp.bal.b120_plus * (sol Overdue.b120_plus - 1 / 20000) ≤
      inp.bal.b120_plus * recOf sol Overdue.b120_plus :=
    mul_le_mul_of_nonneg_left (round_to4_ge _) h120
  have hr120 : recOf sol Overdue.b120_plus = round_to 4 (sol Overdue.b120_plus) := rfl
  have e120c : inp.bal.b120_plus * (1 - recOf sol Overdue.b120_plus) ≤
      inp.bal.b120_plus * (1 - sol Overdue.b120_plus + 1 / 20000) :=
    mul_le_mul_of_nonneg_left
      (by rw [hr120]; linarith [round_to4_ge (sol Overdue.b120_plus)]) h120
  refine ⟨?_, ?_, ?_, ?_, ?_, ?_⟩
  · intro b
    exact ⟨round_to_nonneg (hb b).1, round_to_le_one (hb b).2⟩
  · rw [le_div_iff₀ htot]
    exact hc1
  · rw [le_div_iff₀ htot]
    unfold projected_current at hc1
    unfold cash_sum
    linarith
  · rw [div_le_iff₀ htot]
    exact hc2
  · rw [div_le_iff₀ htot]
    linarith
  · intro a ha
    have h1 := hamt a ha
    exact ⟨h1, by linarith⟩

theorem c1_feas : Feasible c1Inp zeroSol := by
  refine ⟨fun b => by norm_num [zeroSol], ?_, ?_, ?_⟩
  · norm_num [c1Inp, Bal.total, projected_current, zeroSol]
  · norm_num [c1Inp, Bal.total, zeroSol]
  · intro a ha
    have ha2 : a = 50 := by
      have : (some 50 : Option ℚ) = some a := ha
      simpa using this.symm
    subst ha2
    norm_num [c1Inp, zeroSol]

theorem c1_ok : optimise_month c1Inp (some zeroSol) =
    Except.ok (recOf zeroSol, mkKpi c1Inp zeroSol) := by
  have h : c1Inp.bal.total ≠ 0 := by norm_num [c1Inp, Bal.total]
  show (if c1Inp.bal.total = 0 then Except.error PyError.zeroDivisionError
    else Except.ok (recOf zeroSol, mkKpi c1Inp zeroSol)) = _
  rw [if_neg h]

/-- Witness for C1 at a concrete feasible solve with the absolute cap
supplied. -/
theorem optimise_month_success_bounds_witness :
    (∀ b, 0 ≤ recOf zeroSol b ∧ recOf zeroSol b ≤ 1) ∧
    c1Inp.target_current ≤ projected_current c1Inp.bal zeroSol / c1Inp.bal.total ∧
    c1Inp.target_current - 1 / 10000 ≤
      (c1Inp.bal.current + cash_sum c1Inp.bal (recOf zeroSol)) / c1Inp.bal.total ∧
    c1Inp.bal.b120_plus * (1 - zeroSol Overdue.b120_plus) / c1Inp.bal.total ≤
      c1Inp.max_120p_ratio ∧
    c1Inp.bal.b120_plus * (1 - recOf zeroSol Overdue.b120_plus) / c1Inp.bal.total ≤
      c1Inp.max_120p_ratio + 1 / 10000 ∧
    (∀ a, c1Inp.max_120p_amount = some a →
      c1Inp.bal.b120_plus * (1 - zeroSol Overdue.b120_plus) ≤ a ∧
      c1Inp.bal.b120_plus * (1 - recOf zeroSol Overdue.b120_plus) ≤
        a + c1Inp.bal.total / 20000) :=
  optimise_month_success_bounds c1Inp zeroSol (recOf zeroSol) (mkKpi c1Inp zeroSol)
    (by norm_num [Bal.Nonneg, c1Inp]) (by norm_num [Bal.total, c1Inp]) c1_feas c1_ok
